import Mathlib

/-!
# Verification of the Moonward Odyssey multiplayer session server

A shallow embedding of `src/server/index.ts`, the socket.io based lobby,
matchmaking and relay server.  JavaScript `Map` objects are embedded as
association lists preserving insertion order (`Map.set` replaces an existing
key in place and appends a fresh key at the end; `Map.delete` removes the
entry; iteration order is insertion order).  Wall-clock time (`Date.now()`),
randomly generated lobby ids, random spawn coordinates and the liveness of a
partner socket (`io.sockets.sockets.get`) are passed to each handler as
explicit parameters.  Numeric gameplay payloads (positions, rotation, health)
are embedded as rationals; the server never computes with them, it only stores
and forwards them.  Emitted socket.io events are returned as an explicit list.
-/

namespace Moonward

/-- JS `Map` lookup: first entry with the given key (keys are unique in a real
`Map`; the embedding keeps first-occurrence semantics). -/
def aget {α : Type} : List (String × α) → String → Option α
  | [], _ => none
  | (k, v) :: t, k' => if k = k' then some v else aget t k'

/-- JS `Map.set`: replace the entry in place when the key is present,
append at the end otherwise. -/
def aset {α : Type} : List (String × α) → String → α → List (String × α)
  | [], k, v => [(k, v)]
  | (k', v') :: t, k, v => if k' = k then (k, v) :: t else (k', v') :: aset t k v

/-- JS `Map.delete`: remove the entry with the given key. -/
def adel {α : Type} : List (String × α) → String → List (String × α)
  | [], _ => []
  | (k', v') :: t, k => if k' = k then t else (k', v') :: adel t k

/-- Keys of a JS `Map`, in insertion order. -/
def keys {α : Type} (l : List (String × α)) : List String := l.map Prod.fst

/-- The keys of the association list are pairwise distinct (true of every
real JS `Map`, and preserved by all the embedded operations). -/
abbrev keysNodup {α : Type} (l : List (String × α)) : Prop := (l.map Prod.fst).Nodup

-- ## Data model (`interface Player`, `ChatMessage`, `Lobby` in the source)

/-- `interface Player` from `src/server/index.ts`. -/
structure Player where
  id : String
  username : String
  position : Rat × Rat × Rat
  rotation : Rat
  health : Rat
  isHost : Bool
  isReady : Bool
  slot : Nat
  lastActivity : Nat
  deriving DecidableEq, Repr

/-- `interface ChatMessage` from `src/server/index.ts`. -/
structure ChatMessage where
  id : String
  username : String
  text : String
  timestamp : Nat
  deriving DecidableEq, Repr

/-- `gameState: 'waiting' | 'loading' | 'playing' | 'finished'`. -/
inductive GameState where
  | waiting
  | loading
  | playing
  | finished
  deriving DecidableEq, Repr

/-- `interface Lobby` from `src/server/index.ts`.  `players` embeds the JS
`Map<string, Player>` as an insertion-ordered association list. -/
structure Lobby where
  id : String
  name : String
  hostId : String
  players : List (String × Player)
  gameState : GameState
  maxPlayers : Nat
  createdAt : Nat
  chat : List ChatMessage
  deriving DecidableEq, Repr

/-- Entry of the `usernames` registry map:
`{ socketId: string; lastActivity: number }`. -/
structure RegEntry where
  socketId : String
  lastActivity : Nat
  deriving DecidableEq, Repr

/-- The server's global mutable state: the module-level `lobbies`,
`usernames`, `socketToLobby` maps, the `matchmakingQueue` array and the
`lobbyCounter`.  `socketUsername` embeds the per-socket
`(socket as any).username` tag written by the `register` handler. -/
structure ServerState where
  lobbies : List (String × Lobby)
  usernames : List (String × RegEntry)
  socketToLobby : List (String × String)
  socketUsername : List (String × String)
  matchmakingQueue : List String
  lobbyCounter : Nat
  deriving DecidableEq, Repr

/-- JS `String.prototype.trim()`: strip leading and trailing whitespace
(structurally recursive so that concrete instances evaluate). -/
def strTrim (s : String) : String :=
  ⟨((s.data.dropWhile Char.isWhitespace).reverse.dropWhile Char.isWhitespace).reverse⟩

/-- JS `String.prototype.slice(0, n)`: the first `n` characters
(structurally recursive so that concrete instances evaluate). -/
def strTake (s : String) (n : Nat) : String := ⟨s.data.take n⟩

/-- `const MAX_LOBBIES = 20`. -/
def maxLobbies : Nat := 20

/-- `const MAX_PLAYERS_PER_LOBBY = 4`. -/
def maxPlayersPerLobby : Nat := 4

/-- `const USERNAME_TIMEOUT = 5 * 60 * 1000`. -/
def usernameTimeout : Nat := 5 * 60 * 1000

/-- Server state at process start: all registries empty, `lobbyCounter = 1`. -/
def initialState : ServerState := ⟨[], [], [], [], [], 1⟩

-- ## Emitted events

/-- Payloads of the socket.io events the embedded handlers emit. -/
inductive Event where
  | playerJoined (p : Player)
  | playerLeft (sid : String)
  | playerMoved (sid : String) (position : Rat × Rat × Rat) (rotation health : Rat)
  | playerReady (sid : String) (isReady : Bool)
  | newHost (sid : String)
  | chatMessage (m : ChatMessage)
  | gameLoading
  | gameStarted
  | matchFound (lobbyId : String)
  | lobbyListUpdated
  | gameOver (killedPlayer : String)
  deriving DecidableEq, Repr

/-- An emission: `io.to(room).emit` (whole room), `socket.to(room).emit`
(room minus the sender), `io.emit` (every connection) or a direct
`socket.emit`. -/
inductive Emit where
  | toRoom (room : String) (ev : Event)
  | toRoomExcept (room sender : String) (ev : Event)
  | toAll (ev : Event)
  | toSocket (sid : String) (ev : Event)
  deriving DecidableEq, Repr

/-- Which of a session's participants (given by their connection ids) receive
an emission: `io.to(room)` reaches every participant, `socket.to(room)` every
participant except the sender, `io.emit` everyone, a direct `socket.emit`
only its target. -/
def emitRecipients (members : List String) : Emit → List String
  | .toRoom _ _ => members
  | .toRoomExcept _ sender _ => members.filter (fun x => x ≠ sender)
  | .toAll _ => members
  | .toSocket sid _ => [sid]

/-- Result + new state + emitted events of one handler invocation. -/
structure Out (ρ : Type) where
  state : ServerState
  emits : List Emit
  result : ρ
  deriving DecidableEq, Repr

-- ## Handler results (the shapes passed to the socket.io callbacks)

/-- Result of the `register` callback. -/
inductive RegRes where
  | ok
  | err (msg : String)
  deriving DecidableEq, Repr

/-- Result of the `createLobby` callback. -/
inductive CreateRes where
  | ok (lobbyId lobbyName : String)
  | err (msg : String)
  deriving DecidableEq, Repr

/-- The `lobbyData` object returned by a successful `joinLobby`. -/
structure LobbySnapshot where
  id : String
  name : String
  players : List Player
  chat : List ChatMessage
  deriving DecidableEq, Repr

/-- Result of the `joinLobby` callback. -/
inductive JoinRes where
  | ok (snapshot : LobbySnapshot)
  | err (msg : String)
  deriving DecidableEq, Repr

/-- Result of the `quickMatch` callback (`status: 'matched' | 'searching'`). -/
inductive MatchRes where
  | matched
  | searching
  deriving DecidableEq, Repr

/-- Result of the `startGame` callback. -/
inductive StartRes where
  | ok
  | err (msg : String)
  deriving DecidableEq, Repr

-- ## Handlers

/-- `(socket as any).username || fallback`. -/
def socketName (s : ServerState) (sid fallback : String) : String :=
  (aget s.socketUsername sid).getD fallback

/-- The `register` handler (`src/server/index.ts:166-190`): reject usernames
whose trimmed form is shorter than 2 characters; reject names held by a
different socket whose registry entry is still inside the 5-minute activity
window; otherwise (re-)bind the name and tag the socket. -/
def register (s : ServerState) (sid username : String) (now : Nat) : Out RegRes :=
  if (strTrim username).length < 2 then
    ⟨s, [], .err "Username must be at least 2 characters"⟩
  else
    let trimmed := strTrim username
    let blocked : Bool :=
      match aget s.usernames trimmed with
      | some e =>
        if e.socketId = sid then false
        else decide (now - e.lastActivity < usernameTimeout)
      | none => false
    if blocked then
      ⟨s, [], .err "Username taken"⟩
    else
      ⟨{ s with usernames := aset s.usernames trimmed ⟨sid, now⟩,
                socketUsername := aset s.socketUsername sid trimmed },
        [], .ok⟩

/-- The `createLobby` handler (`src/server/index.ts:202-248`): fail when
`lobbies.size >= MAX_LOBBIES`; otherwise create a fresh lobby whose single
participant is the caller, host at slot 1, state `waiting`.  The random
6-character id is the `newId` parameter.  Note the handler never checks that
the caller registered a username: it falls back to `'Guest'`. -/
def createLobby (s : ServerState) (sid newId : String) (now : Nat) : Out CreateRes :=
  if s.lobbies.length ≥ maxLobbies then
    ⟨s, [], .err "Max lobbies reached (20)"⟩
  else
    let lobbyName := "Lobby " ++ toString s.lobbyCounter
    let username := socketName s sid "Guest"
    let player : Player :=
      { id := sid, username := username, position := (0, 2, 0), rotation := 0,
        health := 100, isHost := true, isReady := true, slot := 1, lastActivity := now }
    let lobby : Lobby :=
      { id := newId, name := lobbyName, hostId := sid, players := [(sid, player)],
        gameState := .waiting, maxPlayers := maxPlayersPerLobby, createdAt := now, chat := [] }
    ⟨{ s with lobbies := aset s.lobbies newId lobby,
              socketToLobby := aset s.socketToLobby sid newId,
              lobbyCounter := s.lobbyCounter + 1 },
      [.toAll .lobbyListUpdated], .ok newId lobbyName⟩

/-- `findAvailableSlot` (`src/server/index.ts:126-132`): the first slot in
`1..MAX_PLAYERS_PER_LOBBY` not used by any current player (`none` embeds the
`-1` sentinel). -/
def findAvailableSlot (L : Lobby) : Option Nat :=
  let used := L.players.map (fun e => e.2.slot)
  (List.range maxPlayersPerLobby).map (· + 1) |>.find? (fun i => ¬ used.contains i)

/-- The `joinLobby` handler (`src/server/index.ts:251-311`): in source order,
fail on unknown lobby, full lobby, non-`waiting` state, or no free slot;
otherwise insert the joiner (never host, not ready) at the lowest free slot
and answer with a snapshot containing the roster and the last 50 chat
messages.  `rx`/`rz` are the random spawn coordinates. -/
def joinLobby (s : ServerState) (sid lobbyId : String) (now : Nat) (rx rz : Rat) :
    Out JoinRes :=
  match aget s.lobbies lobbyId with
  | none => ⟨s, [], .err "Lobby not found"⟩
  | some lobby =>
    if lobby.players.length ≥ lobby.maxPlayers then
      ⟨s, [], .err "Lobby is full"⟩
    else if lobby.gameState ≠ .waiting then
      ⟨s, [], .err "Game already started"⟩
    else
      match findAvailableSlot lobby with
      | none => ⟨s, [], .err "No available slots"⟩
      | some slot =>
        let username := socketName s sid "Guest"
        let player : Player :=
          { id := sid, username := username, position := (rx, 2, rz), rotation := 0,
            health := 100, isHost := false, isReady := false, slot := slot,
            lastActivity := now }
        let lobby' := { lobby with players := aset lobby.players sid player }
        let snapshot : LobbySnapshot :=
          { id := lobby.id, name := lobby.name,
            players := lobby'.players.map Prod.snd,
            chat := lobby.chat.drop (lobby.chat.length - 50) }
        ⟨{ s with lobbies := aset s.lobbies lobbyId lobby',
                  socketToLobby := aset s.socketToLobby sid lobbyId },
          [.toRoomExcept lobbyId sid (.playerJoined player), .toAll .lobbyListUpdated],
          .ok snapshot⟩

/-- The `quickMatch` handler (`src/server/index.ts:314-429`): first remove the
caller's old queue entry; if somebody is waiting, pop the oldest entry and —
when that partner socket is still connected — create a 2-capacity `loading`
lobby with the partner as host (slot 1) and the caller as joiner (slot 2);
when the partner socket is gone, or nobody was waiting, enqueue the caller.
`connected` is the oracle for `io.sockets.sockets.get`. -/
def quickMatch (s : ServerState) (sid newId : String) (now : Nat)
    (connected : String → Bool) : Out MatchRes :=
  let q := s.matchmakingQueue.erase sid
  match q with
  | [] =>
    ⟨{ s with matchmakingQueue := q ++ [sid] }, [], .searching⟩
  | partnerId :: rest =>
    if connected partnerId then
      let host : Player :=
        { id := partnerId, username := socketName s partnerId "Player 1",
          position := (0, 2, 0), rotation := 0, health := 100, isHost := true,
          isReady := true, slot := 1, lastActivity := now }
      let joiner : Player :=
        { id := sid, username := socketName s sid "Player 2",
          position := (1, 2, 0), rotation := 0, health := 100, isHost := false,
          isReady := true, slot := 2, lastActivity := now }
      let lobby : Lobby :=
        { id := newId, name := "Match " ++ newId, hostId := partnerId,
          players := aset (aset [] partnerId host) sid joiner,
          gameState := .loading, maxPlayers := 2, createdAt := now, chat := [] }
      ⟨{ s with matchmakingQueue := rest,
                lobbies := aset s.lobbies newId lobby,
                socketToLobby := aset (aset s.socketToLobby partnerId newId) sid newId },
        [.toSocket partnerId (.matchFound newId), .toSocket sid (.matchFound newId)],
        .matched⟩
    else
      ⟨{ s with matchmakingQueue := rest ++ [sid] }, [], .searching⟩

/-- The `cancelMatch` handler (`src/server/index.ts:432-438`). -/
def cancelMatch (s : ServerState) (sid : String) : Out Unit :=
  ⟨{ s with matchmakingQueue := s.matchmakingQueue.erase sid }, [], ()⟩

/-- `lobby.chat.push(message); if (lobby.chat.length > 100) lobby.chat.shift()`
(`src/server/index.ts:456-459`). -/
def chatPush (log : List ChatMessage) (m : ChatMessage) : List ChatMessage :=
  let c := log ++ [m]
  if 100 < c.length then c.drop 1 else c

/-- The `sendChat` handler (`src/server/index.ts:441-463`): silently drop the
message when the socket has no lobby; otherwise truncate to 200 characters,
append to the bounded log, and broadcast to the whole room (sender included).
`msgId` is the generated message id. -/
def sendChat (s : ServerState) (sid text msgId : String) (now : Nat) : Out Unit :=
  match aget s.socketToLobby sid with
  | none => ⟨s, [], ()⟩
  | some lobbyId =>
    match aget s.lobbies lobbyId with
    | none => ⟨s, [], ()⟩
    | some lobby =>
      let message : ChatMessage :=
        { id := msgId, username := socketName s sid "Guest",
          text := strTake text 200, timestamp := now }
      let lobby' := { lobby with chat := chatPush lobby.chat message }
      ⟨{ s with lobbies := aset s.lobbies lobbyId lobby' },
        [.toRoom lobbyId (.chatMessage message)], ()⟩

/-- The `toggleReady` handler (`src/server/index.ts:466-479`): a non-host
participant flips `isReady`; hosts and unmapped sockets are no-ops. -/
def toggleReady (s : ServerState) (sid : String) : Out Unit :=
  match aget s.socketToLobby sid with
  | none => ⟨s, [], ()⟩
  | some lobbyId =>
    match aget s.lobbies lobbyId with
    | none => ⟨s, [], ()⟩
    | some lobby =>
      match aget lobby.players sid with
      | none => ⟨s, [], ()⟩
      | some player =>
        if player.isHost then ⟨s, [], ()⟩
        else
          let player' := { player with isReady := !player.isReady }
          let lobby' := { lobby with players := aset lobby.players sid player' }
          ⟨{ s with lobbies := aset s.lobbies lobbyId lobby' },
            [.toRoom lobbyId (.playerReady sid player'.isReady)], ()⟩

/-- The `startGame` handler (`src/server/index.ts:482-523`): an unmapped
socket gets the error `'Not in a lobby'`; a non-host (or a stale lobby id)
gets `'Not the host'`; fewer than 2 players gets `'Need at least 2 players'`;
otherwise the lobby is put into `loading` — with no check of the current
lifecycle state — and `gameLoading` is broadcast.  The delayed
`Loading -> Playing` step is the separate `gameStartTimeout`. -/
def startGame (s : ServerState) (sid : String) : Out StartRes :=
  match aget s.socketToLobby sid with
  | none => ⟨s, [], .err "Not in a lobby"⟩
  | some lobbyId =>
    match aget s.lobbies lobbyId with
    | none => ⟨s, [], .err "Not the host"⟩
    | some lobby =>
      if lobby.hostId ≠ sid then ⟨s, [], .err "Not the host"⟩
      else if lobby.players.length < 2 then ⟨s, [], .err "Need at least 2 players"⟩
      else
        let lobby' := { lobby with gameState := .loading }
        ⟨{ s with lobbies := aset s.lobbies lobbyId lobby' },
          [.toRoom lobbyId .gameLoading, .toAll .lobbyListUpdated], .ok⟩

/-- The scheduled `setTimeout` bodies of `startGame` (3 s) and `quickMatch`
(3.5 s): re-fetch the lobby by id; if it still exists set it to `playing`
and broadcast `gameStarted`, otherwise do nothing. -/
def gameStartTimeout (s : ServerState) (lobbyId : String) : Out Unit :=
  match aget s.lobbies lobbyId with
  | none => ⟨s, [], ()⟩
  | some lobby =>
    ⟨{ s with lobbies := aset s.lobbies lobbyId { lobby with gameState := .playing } },
      [.toRoom lobbyId .gameStarted], ()⟩

/-- The `playerUpdate` handler (`src/server/index.ts:526-550`): store the
update on the sender's participant record (when present), refresh the
sender's registry activity, and relay a `playerMoved` with the identical
payload to the room minus the sender. -/
def playerUpdate (s : ServerState) (sid : String) (pos : Rat × Rat × Rat)
    (rot health : Rat) (now : Nat) : Out Unit :=
  match aget s.socketToLobby sid with
  | none => ⟨s, [], ()⟩
  | some lobbyId =>
    match aget s.lobbies lobbyId with
    | none => ⟨s, [], ()⟩
    | some lobby =>
      let s' :=
        match aget lobby.players sid with
        | none => s
        | some player =>
          let player' :=
            { player with
              position := pos
              rotation := rot
              health := health
              lastActivity := now }
          let lobby' := { lobby with players := aset lobby.players sid player' }
          let s1 := { s with lobbies := aset s.lobbies lobbyId lobby' }
          match aget s.socketUsername sid with
          | none => s1
          | some uname =>
            match aget s1.usernames uname with
            | none => s1
            | some e =>
              { s1 with usernames := aset s1.usernames uname { e with lastActivity := now } }
      ⟨s', [.toRoomExcept lobbyId sid (.playerMoved sid pos rot health)], ()⟩

/-- The `playerDied` handler (`src/server/index.ts:591-621`): broadcast
`gameOver`, clear every member's session back-reference, delete the lobby. -/
def playerDied (s : ServerState) (sid : String) : Out Unit :=
  match aget s.socketToLobby sid with
  | none => ⟨s, [], ()⟩
  | some lobbyId =>
    match aget s.lobbies lobbyId with
    | none => ⟨s, [], ()⟩
    | some lobby =>
      let killed := match aget lobby.players sid with
        | some p => p.username
        | none => "Unknown"
      ⟨{ s with socketToLobby := lobby.players.foldl (fun m e => adel m e.1) s.socketToLobby,
                lobbies := adel s.lobbies lobbyId },
        [.toRoom lobbyId (.gameOver killed), .toAll .lobbyListUpdated], ()⟩

/-- `handleDisconnect` (`src/server/index.ts:638-675`): remove the socket from
the matchmaking queue; if it is mapped to a lobby, remove it from the roster,
announce `playerLeft`, and — when it was the host — either promote the first
remaining participant in insertion order (earliest joiner) to host at slot 1
with a single `newHost` broadcast, or delete the now-empty lobby; finally
clear the socket's lobby mapping and announce `lobbyListUpdated`. -/
def handleDisconnect (s : ServerState) (sid : String) : ServerState × List Emit :=
  let s0 := { s with matchmakingQueue := s.matchmakingQueue.erase sid }
  match aget s0.socketToLobby sid with
  | none => (s0, [])
  | some lobbyId =>
    match aget s0.lobbies lobbyId with
    | none =>
      ({ s0 with socketToLobby := adel s0.socketToLobby sid }, [.toAll .lobbyListUpdated])
    | some lobby =>
      let players' := adel lobby.players sid
      let evLeft := Emit.toRoomExcept lobbyId sid (.playerLeft sid)
      if lobby.hostId = sid then
        match players' with
        | [] =>
          ({ s0 with lobbies := adel s0.lobbies lobbyId,
                     socketToLobby := adel s0.socketToLobby sid },
            [evLeft, .toAll .lobbyListUpdated])
        | (newHostId, nh) :: _ =>
          let nh' := { nh with isHost := true, slot := 1 }
          let lobby2 :=
            { lobby with
              hostId := newHostId
              players := aset players' newHostId nh' }
          ({ s0 with lobbies := aset s0.lobbies lobbyId lobby2,
                     socketToLobby := adel s0.socketToLobby sid },
            [evLeft, .toRoom lobbyId (.newHost newHostId), .toAll .lobbyListUpdated])
      else
        ({ s0 with lobbies := aset s0.lobbies lobbyId { lobby with players := players' },
                   socketToLobby := adel s0.socketToLobby sid },
          [evLeft, .toAll .lobbyListUpdated])

/-- The `leaveLobby` handler (`src/server/index.ts:624-628`):
`handleDisconnect` plus an unconditional `lobbyListUpdated` broadcast. -/
def leaveLobby (s : ServerState) (sid : String) : ServerState × List Emit :=
  let r := handleDisconnect s sid
  (r.1, r.2 ++ [.toAll .lobbyListUpdated])

-- ## The server as a transition system

/-- One inbound client message (or one scheduled timer firing), with all
runtime nondeterminism (clock, random ids and spawn points, partner-socket
liveness) made explicit. -/
inductive Op where
  | register (sid username : String) (now : Nat)
  | createLobby (sid newId : String) (now : Nat)
  | joinLobby (sid lobbyId : String) (now : Nat) (rx rz : Rat)
  | quickMatch (sid newId : String) (now : Nat) (connected : String → Bool)
  | cancelMatch (sid : String)
  | sendChat (sid text msgId : String) (now : Nat)
  | toggleReady (sid : String)
  | startGame (sid : String)
  | playerUpdate (sid : String) (pos : Rat × Rat × Rat) (rot health : Rat) (now : Nat)
  | gameStartTimeout (lobbyId : String)
  | playerDied (sid : String)
  | leaveLobby (sid : String)
  | disconnect (sid : String)

/-- State transition of one operation (the emitted events are dropped;
individual handlers expose them). -/
def step (s : ServerState) : Op → ServerState
  | .register sid u now => (register s sid u now).state
  | .createLobby sid newId now => (createLobby s sid newId now).state
  | .joinLobby sid lid now rx rz => (joinLobby s sid lid now rx rz).state
  | .quickMatch sid newId now conn => (quickMatch s sid newId now conn).state
  | .cancelMatch sid => (cancelMatch s sid).state
  | .sendChat sid text mid now => (sendChat s sid text mid now).state
  | .toggleReady sid => (toggleReady s sid).state
  | .startGame sid => (startGame s sid).state
  | .playerUpdate sid pos rot health now => (playerUpdate s sid pos rot health now).state
  | .gameStartTimeout lid => (gameStartTimeout s lid).state
  | .playerDied sid => (playerDied s sid).state
  | .leaveLobby sid => (leaveLobby s sid).1
  | .disconnect sid => (handleDisconnect s sid).1

/-- Number of participants of a lobby whose `isHost` flag is set. -/
def countHosts (L : Lobby) : Nat := (L.players.filter (fun e => e.2.isHost)).length

end Moonward

namespace Moonward

-- ## Association-list lemmas (JS `Map` semantics)

theorem aget_aset_self {α : Type} (l : List (String × α)) (k : String) (v : α) :
    aget (aset l k v) k = some v := by
  induction l with
  | nil => simp [aset, aget]
  | cons e t ih =>
    by_cases h : e.1 = k
    · simp [aset, aget, h]
    · simp [aset, aget, h, ih]

theorem aget_aset_ne {α : Type} (l : List (String × α)) (k k' : String) (v : α)
    (h : k ≠ k') : aget (aset l k v) k' = aget l k' := by
  induction l with
  | nil => simp [aset, aget, h]
  | cons e t ih =>
    by_cases he : e.1 = k
    · simp [aset, aget, he, h]
    · simp [aset, aget, he, ih]

theorem mem_aset {α : Type} {l : List (String × α)} {k : String} {v : α}
    {e : String × α} (h : e ∈ aset l k v) : e = (k, v) ∨ e ∈ l := by
  induction l with
  | nil => simpa [aset] using h
  | cons f t ih =>
    by_cases hf : f.1 = k
    · simp only [aset, hf, if_pos rfl] at h
      rcases List.mem_cons.mp h with h | h
      · exact Or.inl h
      · exact Or.inr (List.mem_cons_of_mem _ h)
    · simp only [aset, if_neg hf] at h
      rcases List.mem_cons.mp h with h | h
      · exact Or.inr (h ▸ List.mem_cons_self _ _)
      · rcases ih h with h | h
        · exact Or.inl h
        · exact Or.inr (List.mem_cons_of_mem _ h)

theorem mem_adel {α : Type} {l : List (String × α)} {k : String}
    {e : String × α} (h : e ∈ adel l k) : e ∈ l := by
  induction l with
  | nil => simp [adel] at h
  | cons f t ih =>
    by_cases hf : f.1 = k
    · simp only [adel, if_pos hf] at h
      exact List.mem_cons_of_mem _ h
    · simp only [adel, if_neg hf] at h
      rcases List.mem_cons.mp h with h | h
      · exact h ▸ List.mem_cons_self _ _
      · exact List.mem_cons_of_mem _ (ih h)

theorem keys_aset {α : Type} (l : List (String × α)) (k : String) (v : α) :
    keys (aset l k v) = if k ∈ keys l then keys l else keys l ++ [k] := by
  induction l with
  | nil => simp [aset, keys]
  | cons e t ih =>
    by_cases he : e.1 = k
    · simp [aset, keys, he]
    · have hne : k ≠ e.1 := fun h => he h.symm
      simp only [aset, if_neg he, keys, List.map_cons]
      simp only [keys] at ih
      rw [ih]
      by_cases hk : k ∈ t.map Prod.fst
      · simp [hk, hne]
      · simp [hk, hne]

theorem nodup_aset {α : Type} {l : List (String × α)} (k : String) (v : α)
    (h : keysNodup l) : keysNodup (aset l k v) := by
  unfold keysNodup at *
  have hka := keys_aset l k v
  unfold keys at hka
  rw [hka]
  by_cases hk : k ∈ l.map Prod.fst
  · simpa [hk] using h
  · rw [if_neg hk, List.nodup_append]
    exact ⟨h, List.nodup_singleton k, by simpa [List.disjoint_singleton] using hk⟩

theorem nodup_adel {α : Type} {l : List (String × α)} (k : String)
    (h : keysNodup l) : keysNodup (adel l k) := by
  induction l with
  | nil => simpa [adel] using h
  | cons e t ih =>
    unfold keysNodup at *
    simp only [List.map_cons, List.nodup_cons] at h
    by_cases he : e.1 = k
    · simpa [adel, he] using h.2
    · simp only [adel, if_neg he, List.map_cons, List.nodup_cons]
      refine ⟨fun hc => h.1 ?_, ih h.2⟩
      rcases List.mem_map.mp hc with ⟨f, hf, hfe⟩
      exact List.mem_map.mpr ⟨f, mem_adel hf, hfe⟩

theorem aget_adel_ne {α : Type} (l : List (String × α)) (k k' : String)
    (h : k ≠ k') : aget (adel l k) k' = aget l k' := by
  induction l with
  | nil => simp [adel]
  | cons e t ih =>
    obtain ⟨a, b⟩ := e
    by_cases ha : a = k
    · have hak' : a ≠ k' := fun hc => h (ha.symm.trans hc)
      simp [adel, aget, ha, hak', h]
    · by_cases ha' : a = k'
      · simp [adel, aget, ha, ha', Ne.symm h]
      · simp [adel, aget, ha, ha', ih]

theorem aget_mem {α : Type} {l : List (String × α)} {k : String} {v : α}
    (h : aget l k = some v) : (k, v) ∈ l := by
  induction l with
  | nil => simp [aget] at h
  | cons e t ih =>
    obtain ⟨a, b⟩ := e
    by_cases ha : a = k
    · simp only [aget, if_pos ha] at h
      have hv : b = v := Option.some.inj h
      have hkv : (k, v) = (a, b) := by rw [ha, hv]
      rw [hkv]
      exact List.mem_cons_self _ _
    · simp only [aget, if_neg ha] at h
      exact List.mem_cons_of_mem _ (ih h)

theorem mem_adel_key_ne {α : Type} {l : List (String × α)} {k : String}
    {e : String × α} (hn : keysNodup l) (h : e ∈ adel l k) : e.1 ≠ k := by
  induction l with
  | nil => simp [adel] at h
  | cons f t ih =>
    unfold keysNodup at hn
    simp only [List.map_cons, List.nodup_cons] at hn
    by_cases hf : f.1 = k
    · simp only [adel, if_pos hf] at h
      intro hek
      exact hn.1 (hf ▸ hek ▸ List.mem_map.mpr ⟨e, h, rfl⟩)
    · simp only [adel, if_neg hf] at h
      rcases List.mem_cons.mp h with h | h
      · exact h ▸ hf
      · exact ih hn.2 h

theorem aset_ne_nil {α : Type} (l : List (String × α)) (k : String) (v : α) :
    aset l k v ≠ [] := by
  cases l with
  | nil => simp [aset]
  | cons e t =>
    by_cases he : e.1 = k <;> simp [aset, he]

theorem aget_ne_nil {α : Type} {l : List (String × α)} {k : String} {v : α}
    (h : aget l k = some v) : l ≠ [] := by
  intro hl
  rw [hl] at h
  simp [aget] at h

end Moonward

namespace Moonward

-- ## Claim C3: createLobby preconditions and the created session

/-- C3 counterexample: `createLobby` does NOT require registry membership.
From the initial state, socket `"S1"` has never called `register` (it has no
username tag and no registry entry), yet `createLobby` succeeds and the
created participant simply gets the fallback username `'Guest'`. -/
theorem createLobby_without_registration :
    aget initialState.socketUsername "S1" = none ∧
    aget initialState.usernames "Nova" = none ∧
    (createLobby initialState "S1" "L1" 0).result = CreateRes.ok "L1" "Lobby 1" ∧
    ((aget (createLobby initialState "S1" "L1" 0).state.lobbies "L1").bind
      (fun L => aget L.players "S1")).map Player.username = some "Guest" := by
  refine ⟨rfl, rfl, ?_, ?_⟩ <;> decide

/-- C3 (amended): `createLobby` does not check registration (an unregistered
caller falls back to username `'Guest'`).  It fails with the capacity error
exactly when the session store already holds `MAX_LOBBIES = 20` sessions, and
otherwise succeeds, creating a session whose creator is host at seat 1 with
state `waiting`. -/
theorem createLobby_spec (s : ServerState) (sid newId : String) (now : Nat) :
    (maxLobbies ≤ s.lobbies.length →
      (createLobby s sid newId now).result = .err "Max lobbies reached (20)" ∧
      (createLobby s sid newId now).state = s) ∧
    (s.lobbies.length < maxLobbies →
      (createLobby s sid newId now).result = .ok newId ("Lobby " ++ toString s.lobbyCounter) ∧
      (aget (createLobby s sid newId now).state.lobbies newId).map Lobby.gameState
        = some .waiting ∧
      (aget (createLobby s sid newId now).state.lobbies newId).map Lobby.hostId = some sid ∧
      ((aget (createLobby s sid newId now).state.lobbies newId).bind
        (fun L => aget L.players sid)).map Player.isHost = some true ∧
      ((aget (createLobby s sid newId now).state.lobbies newId).bind
        (fun L => aget L.players sid)).map Player.slot = some 1) := by
  constructor
  · intro h
    simp [createLobby, h]
  · intro h
    have h' : ¬ (maxLobbies ≤ s.lobbies.length) := Nat.not_le.mpr h
    simp [createLobby, ge_iff_le, if_neg h', aget_aset_self, aget]

/-- Witness for `createLobby_spec` at the initial state (0 < 20 sessions):
creation succeeds with the creator as host at seat 1 in a waiting session. -/
theorem createLobby_spec_witness :
    (createLobby initialState "S1" "L1" 0).result = .ok "L1" ("Lobby " ++ toString (1 : Nat)) ∧
    (aget (createLobby initialState "S1" "L1" 0).state.lobbies "L1").map Lobby.gameState
      = some .waiting ∧
    (aget (createLobby initialState "S1" "L1" 0).state.lobbies "L1").map Lobby.hostId
      = some "S1" ∧
    ((aget (createLobby initialState "S1" "L1" 0).state.lobbies "L1").bind
      (fun L => aget L.players "S1")).map Player.isHost = some true ∧
    ((aget (createLobby initialState "S1" "L1" 0).state.lobbies "L1").bind
      (fun L => aget L.players "S1")).map Player.slot = some 1 :=
  (createLobby_spec initialState "S1" "L1" 0).2 (by decide)

-- ## Claim C4: session-scoped actions from connections without a session

/-- C4 counterexample: `startGame` from a connection that is not mapped to any
session is NOT silently ignored — the handler surfaces the structured error
`'Not in a lobby'` to the caller's callback. -/
theorem startGame_unmapped_surfaces_error :
    aget initialState.socketToLobby "S1" = none ∧
    (startGame initialState "S1").result = StartRes.err "Not in a lobby" := by
  exact ⟨rfl, rfl⟩

/-- C4 (amended): for a connection with no session mapping, `sendChat`,
`toggleReady` and `playerUpdate` are silently ignored (state unchanged,
nothing emitted); `leaveLobby` touches no session state and surfaces no error
(its only effects are removing the caller from the matchmaking queue and the
handler's unconditional `lobbyListUpdated` broadcast); `startGame`, however,
replies with the structured error `'Not in a lobby'` (state unchanged). -/
theorem unmapped_session_actions (s : ServerState) (sid : String)
    (h : aget s.socketToLobby sid = none) :
    (∀ text msgId now, (sendChat s sid text msgId now).state = s ∧
      (sendChat s sid text msgId now).emits = []) ∧
    ((toggleReady s sid).state = s ∧ (toggleReady s sid).emits = []) ∧
    (∀ pos rot health now, (playerUpdate s sid pos rot health now).state = s ∧
      (playerUpdate s sid pos rot health now).emits = []) ∧
    ((leaveLobby s sid).1.lobbies = s.lobbies ∧
      (leaveLobby s sid).1.socketToLobby = s.socketToLobby ∧
      (leaveLobby s sid).1.matchmakingQueue = s.matchmakingQueue.erase sid ∧
      (leaveLobby s sid).2 = [.toAll .lobbyListUpdated]) ∧
    ((startGame s sid).state = s ∧ (startGame s sid).result = .err "Not in a lobby") := by
  refine ⟨?_, ?_, ?_, ?_, ?_⟩
  · intro text msgId now
    simp [sendChat, h]
  · simp [toggleReady, h]
  · intro pos rot health now
    simp [playerUpdate, h]
  · simp [leaveLobby, handleDisconnect, h]
  · simp [startGame, h]

/-- Witness for `unmapped_session_actions` at a concrete unmapped socket in
the initial state. -/
theorem unmapped_session_actions_witness :
    ((toggleReady initialState "S9").state = initialState ∧
      (toggleReady initialState "S9").emits = []) ∧
    ((startGame initialState "S9").state = initialState ∧
      (startGame initialState "S9").result = .err "Not in a lobby") :=
  ⟨(unmapped_session_actions initialState "S9" rfl).2.1,
    (unmapped_session_actions initialState "S9" rfl).2.2.2.2⟩

-- ## Claim C6: register

/-- C6: `register` fails when the trimmed username is shorter than 2
characters; fails with `'Username taken'` when a different socket holds the
name with activity strictly inside the 5-minute window; succeeds otherwise —
in particular when the prior holder's entry has expired — re-binding the name
to the caller and tagging the caller's socket with it. -/
theorem register_spec (s : ServerState) (sid u : String) (now : Nat) :
    ((strTrim u).length < 2 →
      (register s sid u now).result = .err "Username must be at least 2 characters" ∧
      (register s sid u now).state = s) ∧
    (∀ e, 2 ≤ (strTrim u).length → aget s.usernames (strTrim u) = some e → e.socketId ≠ sid →
      now - e.lastActivity < usernameTimeout →
      (register s sid u now).result = .err "Username taken" ∧
      (register s sid u now).state = s) ∧
    (2 ≤ (strTrim u).length →
      (∀ e, aget s.usernames (strTrim u) = some e →
        e.socketId = sid ∨ usernameTimeout ≤ now - e.lastActivity) →
      (register s sid u now).result = .ok ∧
      (register s sid u now).state.usernames = aset s.usernames (strTrim u) ⟨sid, now⟩ ∧
      (register s sid u now).state.socketUsername = aset s.socketUsername sid (strTrim u)) := by
  refine ⟨?_, ?_, ?_⟩
  · intro h
    simp [register, h]
  · intro e hlen hget hne hwin
    have h' : ¬ ((strTrim u).length < 2) := Nat.not_lt.mpr hlen
    simp [register, h', hget, hne, hwin]
  · intro hlen hfree
    have h' : ¬ ((strTrim u).length < 2) := Nat.not_lt.mpr hlen
    simp only [register, if_neg h']
    cases hget : aget s.usernames (strTrim u) with
    | none => simp [hget]
    | some e =>
      rcases hfree e hget with hsid | hexp
      · simp [hget, hsid]
      · have hw : ¬ (now - e.lastActivity < usernameTimeout) := Nat.not_lt.mpr hexp
        simp [hget, hw]

/-- Witness for `register_spec`: with `"Nova"` registered to socket `"S1"` at
time 0, a second socket registering `"Nova"` at time 10 (inside the window)
is refused with `'Username taken'`, and the same call at time 300000 (the
5-minute timeout) succeeds and re-binds the name. -/
theorem register_spec_witness :
    (register { initialState with usernames := [("Nova", ⟨"S1", 0⟩)] }
        "S2" "Nova" 10).result = RegRes.err "Username taken" ∧
    (register { initialState with usernames := [("Nova", ⟨"S1", 0⟩)] }
        "S2" "Nova" 300000).result = RegRes.ok ∧
    (register { initialState with usernames := [("Nova", ⟨"S1", 0⟩)] }
        "S2" "Nova" 300000).state.usernames = [("Nova", ⟨"S2", 300000⟩)] := by
  have hfree : ∀ e, aget ({ initialState with
      usernames := [("Nova", ⟨"S1", 0⟩)] } : ServerState).usernames (strTrim "Nova") = some e →
      e.socketId = "S2" ∨ usernameTimeout ≤ 300000 - e.lastActivity := by
    intro e he
    have hx : aget ({ initialState with
        usernames := [("Nova", ⟨"S1", 0⟩)] } : ServerState).usernames (strTrim "Nova")
        = some (⟨"S1", 0⟩ : RegEntry) := by decide
    have hE : e = (⟨"S1", 0⟩ : RegEntry) := (Option.some.inj (hx.symm.trans he)).symm
    subst hE
    right
    decide
  refine ⟨?_, ?_, ?_⟩
  · exact ((register_spec { initialState with usernames := [("Nova", ⟨"S1", 0⟩)] }
      "S2" "Nova" 10).2.1 ⟨"S1", 0⟩ (by decide) (by decide) (by decide) (by decide)).1
  · exact ((register_spec { initialState with usernames := [("Nova", ⟨"S1", 0⟩)] }
      "S2" "Nova" 300000).2.2 (by decide) hfree).1
  · have h := ((register_spec { initialState with usernames := [("Nova", ⟨"S1", 0⟩)] }
      "S2" "Nova" 300000).2.2 (by decide) hfree).2.1
    rw [h]
    decide

end Moonward

namespace Moonward

-- ## Claim C9: quickMatch never duplicates a queue entry

/-- One `quickMatch` call keeps the caller's queue multiplicity at most 1:
the handler first erases the caller's old entry, then re-enqueues it at most
once. -/
theorem quickMatch_count_le_one (s : ServerState) (sid newId : String) (now : Nat)
    (connected : String → Bool) (h : s.matchmakingQueue.count sid ≤ 1) :
    (quickMatch s sid newId now connected).state.matchmakingQueue.count sid ≤ 1 := by
  have he : (s.matchmakingQueue.erase sid).count sid = 0 := by
    rw [List.count_erase_self]
    omega
  simp only [quickMatch]
  cases hq : s.matchmakingQueue.erase sid with
  | nil =>
    simp
  | cons p rest =>
    rw [hq] at he
    have hp : p ≠ sid := by
      intro hps
      rw [hps] at he
      simp [List.count_cons_self] at he
    have hrest : rest.count sid = 0 := by
      rw [List.count_cons_of_ne (fun hc => hp hc.symm)] at he
      exact he
    by_cases hc : connected p
    · simp [hc, hrest]
    · simp [hc, hrest]

/-- C9: a connection's queue multiplicity stays at most 1 across any sequence
of `quickMatch` calls by that connection (no intervening cancel), because a
repeated `quickMatch` first removes the caller's old entry before
re-evaluating.  Each element of `calls` carries the per-call nondeterminism
(generated lobby id, clock, partner-socket liveness). -/
theorem quickMatch_idempotent_queue (s : ServerState) (sid : String)
    (calls : List (String × Nat × (String → Bool)))
    (h : s.matchmakingQueue.count sid ≤ 1) :
    (calls.foldl (fun st c => (quickMatch st sid c.1 c.2.1 c.2.2).state)
      s).matchmakingQueue.count sid ≤ 1 := by
  induction calls generalizing s with
  | nil => exact h
  | cons c cs ih =>
    exact ih _ (quickMatch_count_le_one s sid c.1 c.2.1 c.2.2 h)

/-- Witness for `quickMatch_idempotent_queue`: two consecutive `quickMatch`
calls by `"A"` from the empty initial queue leave `"A"` queued at most
once. -/
theorem quickMatch_idempotent_queue_witness :
    (([("M1", 0, fun _ => true), ("M2", 1, fun _ => true)] :
        List (String × Nat × (String → Bool))).foldl
      (fun st c => (quickMatch st "A" c.1 c.2.1 c.2.2).state)
      initialState).matchmakingQueue.count "A" ≤ 1 :=
  quickMatch_idempotent_queue initialState "A" _ (by decide)

-- ## Claim C10: joinLobby snapshot carries at most the 50 newest messages

/-- Chat log of a `joinLobby` result, when it succeeded. -/
def joinResChat : JoinRes → Option (List ChatMessage)
  | .ok snap => some snap.chat
  | .err _ => none

/-- C10: the snapshot a successful `joinLobby` returns contains exactly the
last 50 stored chat messages (all of them when fewer are stored): a suffix of
the session's log of length at most 50, even though the stored log itself may
hold up to 100 messages. -/
theorem joinLobby_snapshot_chat (s : ServerState) (sid lobbyId : String) (now : Nat)
    (rx rz : Rat) (L : Lobby) (hL : aget s.lobbies lobbyId = some L) :
    ∀ c, joinResChat (joinLobby s sid lobbyId now rx rz).result = some c →
      c = L.chat.drop (L.chat.length - 50) ∧ c.length ≤ 50 ∧ c <:+ L.chat := by
  intro c hres
  unfold joinLobby at hres
  rw [hL] at hres
  by_cases h1 : L.players.length ≥ L.maxPlayers
  · simp [h1, joinResChat] at hres
  · by_cases h2 : L.gameState ≠ GameState.waiting
    · simp [h1, h2, joinResChat] at hres
    · cases h3 : findAvailableSlot L with
      | none => simp [h1, h2, h3, joinResChat] at hres
      | some slot =>
        simp only [h1, h2, h3, if_neg, if_pos, ite_false, ite_true, joinResChat] at hres
        have hc : c = L.chat.drop (L.chat.length - 50) := by
          simp [joinResChat] at hres
          exact hres.symm
        refine ⟨hc, ?_, ?_⟩
        · rw [hc, List.length_drop]
          omega
        · rw [hc]
          exact List.drop_suffix _ _

/-- A host participant used by concrete witness states. -/
def hostPlayerW : Player :=
  { id := "A", username := "A", position := (0, 2, 0), rotation := 0, health := 100,
    isHost := true, isReady := true, slot := 1, lastActivity := 0 }

/-- A lobby holding 55 chat messages, used to witness the snapshot bound. -/
def chatLobbyW : Lobby :=
  { id := "L1", name := "Lobby 1", hostId := "A", players := [("A", hostPlayerW)],
    gameState := .waiting, maxPlayers := 4, createdAt := 0,
    chat := (List.range 55).map (fun i => ⟨toString i, "u", "m", i⟩) }

/-- Server state holding `chatLobbyW`. -/
def chatStateW : ServerState :=
  { initialState with lobbies := [("L1", chatLobbyW)], socketToLobby := [("A", "L1")] }

/-- Witness for `joinLobby_snapshot_chat`: joining the 55-message lobby hands
the joiner the last 50 messages — a length-50 suffix of the stored log. -/
theorem joinLobby_snapshot_chat_witness :
    chatLobbyW.chat.drop (chatLobbyW.chat.length - 50)
        = chatLobbyW.chat.drop 5 ∧
      chatLobbyW.chat.drop 5 = (chatLobbyW.chat.drop (chatLobbyW.chat.length - 50)) ∧
      (chatLobbyW.chat.drop (chatLobbyW.chat.length - 50)).length ≤ 50 ∧
      (chatLobbyW.chat.drop (chatLobbyW.chat.length - 50)) <:+ chatLobbyW.chat := by
  have happ := joinLobby_snapshot_chat chatStateW "B" "L1" 7 0 0 chatLobbyW rfl
    (chatLobbyW.chat.drop (chatLobbyW.chat.length - 50)) (by decide)
  exact ⟨by decide, by decide, happ.2.1, happ.2.2⟩

end Moonward

namespace Moonward

-- ## Claim C8: chat truncation, broadcast and the bounded log

/-- `chatPush` never grows the log beyond 100 entries. -/
theorem chatPush_length_le (log : List ChatMessage) (m : ChatMessage)
    (h : log.length ≤ 100) : (chatPush log m).length ≤ 100 := by
  unfold chatPush
  dsimp only
  split
  · simp only [List.length_drop, List.length_append, List.length_singleton]
    omega
  · next hc =>
    simp only [List.length_append, List.length_singleton] at hc ⊢
    omega

/-- Sliding-window characterisation of the bounded chat log: folding
`chatPush` over any message sequence keeps exactly the newest 100 entries of
the concatenated history. -/
theorem chatPush_window (ms : List ChatMessage) : ∀ (log : List ChatMessage),
    log.length ≤ 100 →
    List.foldl chatPush log ms = (log ++ ms).drop ((log ++ ms).length - 100) := by
  induction ms with
  | nil =>
    intro log hlog
    simp only [List.foldl_nil, List.append_nil]
    rw [Nat.sub_eq_zero_of_le hlog, List.drop_zero]
  | cons m ms ih =>
    intro log hlog
    rw [List.foldl_cons]
    by_cases hc : log.length < 100
    · have h1 : chatPush log m = log ++ [m] := by
        unfold chatPush
        rw [if_neg]
        simp only [List.length_append, List.length_singleton]
        omega
      rw [h1, ih (log ++ [m]) (by simp only [List.length_append, List.length_singleton]; omega)]
      simp [List.append_assoc]
    · have hlen : log.length = 100 := by omega
      have h1 : chatPush log m = (log ++ [m]).drop 1 := by
        unfold chatPush
        rw [if_pos]
        simp only [List.length_append, List.length_singleton]
        omega
      have h2 : (log ++ [m]).drop 1 = log.drop 1 ++ [m] :=
        List.drop_append_of_le_length (by omega)
      rw [h1, h2, ih (log.drop 1 ++ [m])
        (by simp only [List.length_append, List.length_drop, List.length_singleton]; omega)]
      have e1 : (log.drop 1 ++ [m]) ++ ms = log.drop 1 ++ (m :: ms) := by
        simp [List.append_assoc]
      have e2 : log.drop 1 ++ (m :: ms) = (log ++ (m :: ms)).drop 1 :=
        (List.drop_append_of_le_length (by omega)).symm
      rw [e1, e2, List.drop_drop]
      congr 1
      simp only [List.length_drop, List.length_append, List.length_cons]
      omega

/-- C8: when a mapped participant sends chat text, the stored and broadcast
message carries the input truncated to 200 characters (never rejected), the
`chatMessage` broadcast goes to the whole room — every participant including
the sender —, the session log is extended by the push-then-evict discipline
whose length never exceeds 100, and folding 150 appends from an empty log
keeps exactly the newest 100 messages in order. -/
theorem sendChat_spec (s : ServerState) (sid lid text msgId : String) (now : Nat)
    (L : Lobby) (hmap : aget s.socketToLobby sid = some lid)
    (hL : aget s.lobbies lid = some L) :
    (sendChat s sid text msgId now).emits
        = [.toRoom lid (.chatMessage ⟨msgId, socketName s sid "Guest", strTake text 200, now⟩)] ∧
    (strTake text 200).length ≤ 200 ∧
    (∀ q ∈ keys L.players, q ∈ emitRecipients (keys L.players)
        (.toRoom lid (.chatMessage ⟨msgId, socketName s sid "Guest", strTake text 200, now⟩))) ∧
    (aget (sendChat s sid text msgId now).state.lobbies lid).map Lobby.chat
        = some (chatPush L.chat ⟨msgId, socketName s sid "Guest", strTake text 200, now⟩) ∧
    (L.chat.length ≤ 100 →
      (chatPush L.chat ⟨msgId, socketName s sid "Guest", strTake text 200, now⟩).length ≤ 100) ∧
    (∀ ms : List ChatMessage, ms.length = 150 →
      List.foldl chatPush [] ms = ms.drop 50) := by
  refine ⟨?_, ?_, ?_, ?_, ?_, ?_⟩
  · simp [sendChat, hmap, hL]
  · show (strTake text 200).length ≤ 200
    have : (strTake text 200).length = (text.data.take 200).length := rfl
    rw [this, List.length_take]
    omega
  · intro q hq
    simpa [emitRecipients] using hq
  · simp [sendChat, hmap, hL, aget_aset_self]
  · intro h
    exact chatPush_length_le L.chat _ h
  · intro ms hms
    have h := chatPush_window ms [] (by simp)
    simpa [hms] using h

/-- Witness for `sendChat_spec`: participant `"A"` of the 55-message lobby
sends `"hello"`; the broadcast targets the whole room and the log is
extended by the push discipline. -/
theorem sendChat_spec_witness :
    (sendChat chatStateW "A" "hello" "m1" 9).emits
        = [.toRoom "L1" (.chatMessage
            ⟨"m1", socketName chatStateW "A" "Guest", strTake "hello" 200, 9⟩)] ∧
    (aget (sendChat chatStateW "A" "hello" "m1" 9).state.lobbies "L1").map Lobby.chat
        = some (chatPush chatLobbyW.chat
            ⟨"m1", socketName chatStateW "A" "Guest", strTake "hello" 200, 9⟩) :=
  ⟨(sendChat_spec chatStateW "A" "L1" "hello" "m1" 9 chatLobbyW rfl rfl).1,
    (sendChat_spec chatStateW "A" "L1" "hello" "m1" 9 chatLobbyW rfl rfl).2.2.2.1⟩

end Moonward

namespace Moonward

-- ## Claim C7: playerUpdate stores and relays, never echoing the sender

/-- C7: when participant `sid` of session `lid` sends a `playerUpdate`, the
payload is stored on their participant record, and exactly one `playerMoved`
relay is emitted, carrying the sender's connection id and the identical
payload, addressed to the room minus the sender: every other participant is a
recipient and the sender never is. -/
theorem playerUpdate_spec (s : ServerState) (sid lid : String)
    (pos : Rat × Rat × Rat) (rot health : Rat) (now : Nat) (L : Lobby) (p : Player)
    (hmap : aget s.socketToLobby sid = some lid)
    (hL : aget s.lobbies lid = some L)
    (hp : aget L.players sid = some p) :
    ((aget (playerUpdate s sid pos rot health now).state.lobbies lid).bind
        (fun L' => aget L'.players sid))
      = some { p with position := pos, rotation := rot, health := health, lastActivity := now } ∧
    (playerUpdate s sid pos rot health now).emits
      = [.toRoomExcept lid sid (.playerMoved sid pos rot health)] ∧
    (∀ q ∈ keys L.players, q ≠ sid →
      q ∈ emitRecipients (keys L.players)
        (.toRoomExcept lid sid (.playerMoved sid pos rot health))) ∧
    sid ∉ emitRecipients (keys L.players)
        (.toRoomExcept lid sid (.playerMoved sid pos rot health)) := by
  refine ⟨?_, ?_, ?_, ?_⟩
  · cases hU : aget s.socketUsername sid with
    | none => simp [playerUpdate, hmap, hL, hp, hU, aget_aset_self]
    | some uname =>
      cases hE : aget s.usernames uname with
      | none => simp [playerUpdate, hmap, hL, hp, hU, hE, aget_aset_self]
      | some e => simp [playerUpdate, hmap, hL, hp, hU, hE, aget_aset_self]
  · cases hU : aget s.socketUsername sid with
    | none => simp [playerUpdate, hmap, hL, hp, hU]
    | some uname =>
      cases hE : aget s.usernames uname with
      | none => simp [playerUpdate, hmap, hL, hp, hU, hE]
      | some e => simp [playerUpdate, hmap, hL, hp, hU, hE]
  · intro q hq hqs
    simp [emitRecipients, List.mem_filter, hq, hqs]
  · simp [emitRecipients, List.mem_filter]

/-- The second participant of the witness relay session. -/
def joinPlayerW : Player :=
  { id := "B", username := "B", position := (3, 2, 3), rotation := 0, health := 100,
    isHost := false, isReady := false, slot := 2, lastActivity := 0 }

/-- A two-participant session used to witness the relay behaviour. -/
def relayLobbyW : Lobby :=
  { id := "L1", name := "Lobby 1", hostId := "A",
    players := [("A", hostPlayerW), ("B", joinPlayerW)],
    gameState := .playing, maxPlayers := 4, createdAt := 0, chat := [] }

/-- Server state holding `relayLobbyW` with both sockets mapped to it. -/
def relayStateW : ServerState :=
  { initialState with
    lobbies := [("L1", relayLobbyW)]
    socketToLobby := [("A", "L1"), ("B", "L1")] }

/-- Witness for `playerUpdate_spec`: `"A"` sends `position (1,2,3)`,
`rotation 1/2`, `health 80`; the update is stored, `"B"` receives the relay
with identical payload, `"A"` does not. -/
theorem playerUpdate_spec_witness :
    ((aget (playerUpdate relayStateW "A" (1, 2, 3) (1/2) 80 7).state.lobbies "L1").bind
        (fun L' => aget L'.players "A"))
      = some { hostPlayerW with position := (1, 2, 3), rotation := 1/2, health := 80, lastActivity := 7 } ∧
    (playerUpdate relayStateW "A" (1, 2, 3) (1/2) 80 7).emits
      = [.toRoomExcept "L1" "A" (.playerMoved "A" (1, 2, 3) (1/2) 80)] ∧
    "B" ∈ emitRecipients (keys relayLobbyW.players)
        (.toRoomExcept "L1" "A" (.playerMoved "A" (1, 2, 3) (1/2) 80)) ∧
    "A" ∉ emitRecipients (keys relayLobbyW.players)
        (.toRoomExcept "L1" "A" (.playerMoved "A" (1, 2, 3) (1/2) 80)) := by
  have h := playerUpdate_spec relayStateW "A" "L1" (1, 2, 3) (1/2) 80 7
    relayLobbyW hostPlayerW rfl rfl rfl
  exact ⟨h.1, h.2.1, h.2.2.1 "B" (by decide) (by decide), h.2.2.2⟩

-- ## Claim C5: host migration on leave/disconnect

/-- Is this emission a `newHost` room broadcast? -/
def isNewHostEmit : Emit → Bool
  | .toRoom _ (.newHost _) => true
  | _ => false

/-- `adel` of the looked-up key is gone when keys are distinct. -/
theorem aget_adel_self {α : Type} {l : List (String × α)} (k : String)
    (h : keysNodup l) : aget (adel l k) k = none := by
  induction l with
  | nil => simp [adel, aget]
  | cons e t ih =>
    obtain ⟨a, b⟩ := e
    unfold keysNodup at h
    simp only [List.map_cons, List.nodup_cons] at h
    by_cases ha : a = k
    · subst ha
      have hd : adel ((a, b) :: t) a = t := by simp [adel]
      rw [hd]
      cases hg : aget t a with
      | none => rfl
      | some v => exact absurd (List.mem_map.mpr ⟨(a, v), aget_mem hg, rfl⟩) h.1
    · simp [adel, aget, ha, ih h.2]

/-- C5: when the mapped host of a session leaves or disconnects, then — if no
participants remain — the session is deleted; and if participants remain, the
earliest-joined remaining participant (the head of the roster in insertion
order, which is join order) becomes host, its record is re-flagged `isHost`
with seat reassigned to 1, and the handler emits exactly one `newHost`
broadcast, naming that participant, to the whole room. -/
theorem handleDisconnect_host_migration (s : ServerState) (sid lid : String) (L : Lobby)
    (hmap : aget s.socketToLobby sid = some lid)
    (hL : aget s.lobbies lid = some L)
    (hhost : L.hostId = sid)
    (hnd : keysNodup s.lobbies) :
    (adel L.players sid = [] → aget (handleDisconnect s sid).1.lobbies lid = none) ∧
    (∀ nhId nh t, adel L.players sid = (nhId, nh) :: t →
      (aget (handleDisconnect s sid).1.lobbies lid).map Lobby.hostId = some nhId ∧
      ((aget (handleDisconnect s sid).1.lobbies lid).bind (fun L' => aget L'.players nhId))
        = some { nh with isHost := true, slot := 1 } ∧
      ((handleDisconnect s sid).2.countP (fun e => isNewHostEmit e)) = 1 ∧
      Emit.toRoom lid (.newHost nhId) ∈ (handleDisconnect s sid).2) := by
  constructor
  · intro hemp
    simp only [handleDisconnect, hmap, hL, if_pos hhost, hemp]
    exact aget_adel_self lid hnd
  · intro nhId nh t hsplit
    simp only [handleDisconnect, hmap, hL, if_pos hhost, hsplit]
    refine ⟨?_, ?_, ?_, ?_⟩
    · simp [aget_aset_self]
    · simp [aget_aset_self]
    · rfl
    · simp

/-- State for the host-migration witness: `"A"` creates a session, `"B"` and
`"C"` join in that order. -/
def migS : ServerState :=
  step (step (step initialState (.createLobby "A" "L1" 0))
    (.joinLobby "B" "L1" 1 0 0)) (.joinLobby "C" "L1" 2 0 0)

/-- The witness session as stored in `migS`. -/
def migL : Lobby := (aget migS.lobbies "L1").getD chatLobbyW

/-- The witness roster after removing the disconnecting host `"A"`. -/
def migRem : List (String × Player) := adel migL.players "A"

/-- Witness for `handleDisconnect_host_migration`: disconnecting host `"A"`
of the session `{A, B, C}` promotes `"B"` (earliest remaining joiner) to host
at seat 1 with exactly one `newHost` broadcast. -/
theorem handleDisconnect_host_migration_witness :
    (aget (handleDisconnect migS "A").1.lobbies "L1").map Lobby.hostId = some "B" ∧
    ((aget (handleDisconnect migS "A").1.lobbies "L1").bind
        (fun L' => aget L'.players "B")).map Player.isHost = some true ∧
    ((aget (handleDisconnect migS "A").1.lobbies "L1").bind
        (fun L' => aget L'.players "B")).map Player.slot = some 1 ∧
    ((handleDisconnect migS "A").2.countP (fun e => isNewHostEmit e)) = 1 ∧
    Emit.toRoom "L1" (.newHost "B") ∈ (handleDisconnect migS "A").2 := by
  have h := (handleDisconnect_host_migration migS "A" "L1" migL rfl rfl (by decide)
      (by decide)).2
    (migRem.headD ("", hostPlayerW)).1 (migRem.headD ("", hostPlayerW)).2 migRem.tail
    (by decide)
  have hB : (migRem.headD ("", hostPlayerW)).1 = "B" := by decide
  rw [hB] at h
  refine ⟨h.1, ?_, ?_, h.2.2.1, h.2.2.2⟩
  · rw [h.2.1]
    rfl
  · rw [h.2.1]
    rfl

end Moonward

namespace Moonward

-- ## Claim C2: lifecycle ordering

/-- Position of a lifecycle state in the intended order
`waiting -> loading -> playing -> finished`. -/
def GameState.rank : GameState → Nat
  | .waiting => 0
  | .loading => 1
  | .playing => 2
  | .finished => 3

/-- A state reached from the initial state by: `"A"` creates `"L1"`, `"B"`
joins, `"A"` starts the game (Loading), the 3-second timer fires (Playing). -/
def regrS : ServerState :=
  step (step (step (step initialState (.createLobby "A" "L1" 0))
    (.joinLobby "B" "L1" 1 0 0)) (.startGame "A")) (.gameStartTimeout "L1")

/-- C2 counterexample: in the reachable state `regrS` the session is
`playing`, yet the host's second `startGame` succeeds and moves it back to
`loading` — the lifecycle state regresses. -/
theorem startGame_moves_playing_back_to_loading :
    (aget regrS.lobbies "L1").map Lobby.gameState = some .playing ∧
    (startGame regrS "A").result = .ok ∧
    (aget (step regrS (.startGame "A")).lobbies "L1").map Lobby.gameState
      = some .loading := by
  refine ⟨?_, ?_, ?_⟩ <;> decide

/-- Freshness of the randomly generated 6-character session id consumed by an
operation (the spec guarantees ids are unique among tracked sessions). -/
def freshIds (s : ServerState) : Op → Prop
  | .createLobby _ newId _ => aget s.lobbies newId = none
  | .quickMatch _ newId _ _ => aget s.lobbies newId = none
  | _ => True

/-- Lifecycle monotonicity between two session stores: any id present in both
keeps a rank-nondecreasing state. -/
def monoLe (m m' : List (String × Lobby)) : Prop :=
  ∀ lid L L', aget m lid = some L → aget m' lid = some L' →
    GameState.rank L.gameState ≤ GameState.rank L'.gameState

theorem monoLe_refl (m : List (String × Lobby)) : monoLe m m := by
  intro lid L L' hL hL'
  rw [hL] at hL'
  cases hL'
  exact Nat.le_refl _

theorem monoLe_aset_keep {m : List (String × Lobby)} (lid0 : String) {L0 L0' : Lobby}
    (h0 : aget m lid0 = some L0)
    (hr : GameState.rank L0.gameState ≤ GameState.rank L0'.gameState) :
    monoLe m (aset m lid0 L0') := by
  intro lid L L' hL hL'
  by_cases he : lid = lid0
  · subst he
    rw [aget_aset_self] at hL'
    cases hL'
    rw [h0] at hL
    cases hL
    exact hr
  · rw [aget_aset_ne m lid0 lid L0' (fun hc => he hc.symm)] at hL'
    rw [hL] at hL'
    cases hL'
    exact Nat.le_refl _

theorem monoLe_aset_fresh {m : List (String × Lobby)} (newId : String) (L0 : Lobby)
    (hfresh : aget m newId = none) : monoLe m (aset m newId L0) := by
  intro lid L L' hL hL'
  by_cases he : lid = newId
  · subst he
    rw [hL] at hfresh
    cases hfresh
  · rw [aget_aset_ne m newId lid L0 (fun hc => he hc.symm)] at hL'
    rw [hL] at hL'
    cases hL'
    exact Nat.le_refl _

theorem aget_of_adel {m : List (String × Lobby)} (k lid : String) {L' : Lobby}
    (hnd : keysNodup m) (h : aget (adel m k) lid = some L') : aget m lid = some L' := by
  by_cases he : lid = k
  · subst he
    rw [aget_adel_self lid hnd] at h
    cases h
  · rw [aget_adel_ne _ _ _ (fun hc => he hc.symm)] at h
    exact h

theorem monoLe_adel {m : List (String × Lobby)} (k : String) (hnd : keysNodup m) :
    monoLe m (adel m k) := by
  intro lid L L' hL hL'
  have := aget_of_adel k lid hnd hL'
  rw [hL] at this
  cases this
  exact Nat.le_refl _

/-- No stored session is `finished`. -/
abbrev noFin (m : List (String × Lobby)) : Prop :=
  ∀ e ∈ m, e.2.gameState ≠ GameState.finished

theorem noFin_aset {m : List (String × Lobby)} {k : String} {L0 : Lobby}
    (h : noFin m) (h0 : L0.gameState ≠ GameState.finished) : noFin (aset m k L0) := by
  intro e he
  rcases mem_aset he with he | he
  · rw [he]
    exact h0
  · exact h e he

theorem noFin_adel {m : List (String × Lobby)} {k : String}
    (h : noFin m) : noFin (adel m k) :=
  fun e he => h e (mem_adel he)

/-- Any non-`finished` state ranks at or below `playing`. -/
theorem rank_le_playing {g : GameState} (h : g ≠ GameState.finished) :
    GameState.rank g ≤ GameState.rank GameState.playing := by
  cases g <;> simp [GameState.rank] at h ⊢

end Moonward

namespace Moonward

/-- Packaging of the C2 conclusion for a branch whose store change is
rank-monotone. -/
theorem packC2 {m m' : List (String × Lobby)} {op : Op} (hm : monoLe m m')
    (hnf : noFin m') (hnd' : keysNodup m') :
    (∀ lid L L', aget m lid = some L → aget m' lid = some L' →
      GameState.rank L.gameState ≤ GameState.rank L'.gameState ∨
      (∃ sid, op = Op.startGame sid ∧ L'.gameState = GameState.loading)) ∧
    noFin m' ∧ keysNodup m' :=
  ⟨fun lid L L' h1 h2 => Or.inl (hm lid L L' h1 h2), hnf, hnd'⟩

/-- `handleDisconnect` changes the session store rank-monotonically and
preserves its invariants. -/
theorem handleDisconnect_monotone (s : ServerState) (sid : String)
    (hNF : noFin s.lobbies) (hnd : keysNodup s.lobbies) :
    monoLe s.lobbies (handleDisconnect s sid).1.lobbies ∧
    noFin (handleDisconnect s sid).1.lobbies ∧
    keysNodup (handleDisconnect s sid).1.lobbies := by
  cases hmap : aget s.socketToLobby sid with
  | none =>
    simp only [handleDisconnect, hmap]
    exact ⟨monoLe_refl _, hNF, hnd⟩
  | some lid0 =>
    cases hL0 : aget s.lobbies lid0 with
    | none =>
      simp only [handleDisconnect, hmap, hL0]
      exact ⟨monoLe_refl _, hNF, hnd⟩
    | some L0 =>
      by_cases hh : L0.hostId = sid
      · cases hrem : adel L0.players sid with
        | nil =>
          simp only [handleDisconnect, hmap, hL0, if_pos hh, hrem]
          exact ⟨monoLe_adel lid0 hnd, noFin_adel hNF, nodup_adel _ hnd⟩
        | cons nh t =>
          simp only [handleDisconnect, hmap, hL0, if_pos hh, hrem]
          refine ⟨monoLe_aset_keep lid0 hL0 (Nat.le_refl _),
            noFin_aset hNF ?_, nodup_aset _ _ hnd⟩
          exact hNF _ (aget_mem hL0)
      · simp only [handleDisconnect, hmap, hL0, if_neg hh]
        refine ⟨monoLe_aset_keep lid0 hL0 (Nat.le_refl _),
          noFin_aset hNF ?_, nodup_aset _ _ hnd⟩
        exact hNF _ (aget_mem hL0)

/-- C2 (amended): with fresh session ids, a session's lifecycle state never
moves backwards under any operation except `startGame`: a successful
`startGame` always (re)sets the target session to `loading`, including when
it is already `loading` or `playing` — so `playing -> loading` regressions
are possible through repeated `startGame`.  All operations preserve that no
stored session is `finished` and that session ids are distinct. -/
theorem lifecycle_monotone (s : ServerState) (op : Op)
    (hNF : noFin s.lobbies)
    (hnd : keysNodup s.lobbies)
    (hF : freshIds s op) :
    (∀ lid L L', aget s.lobbies lid = some L →
      aget (step s op).lobbies lid = some L' →
      GameState.rank L.gameState ≤ GameState.rank L'.gameState ∨
      (∃ sid, op = Op.startGame sid ∧ L'.gameState = GameState.loading)) ∧
    noFin (step s op).lobbies ∧
    keysNodup (step s op).lobbies := by
  cases op with
  | register sid u now =>
    by_cases h1 : (strTrim u).length < 2
    · simp only [step, register, if_pos h1]
      exact packC2 (monoLe_refl _) hNF hnd
    · simp only [step, register, if_neg h1]
      split
      · exact packC2 (monoLe_refl _) hNF hnd
      · exact packC2 (monoLe_refl _) hNF hnd
  | createLobby sid newId now =>
    by_cases h1 : s.lobbies.length ≥ maxLobbies
    · simp only [step, createLobby, if_pos h1]
      exact packC2 (monoLe_refl _) hNF hnd
    · simp only [step, createLobby, if_neg h1]
      exact packC2 (monoLe_aset_fresh newId _ hF) (noFin_aset hNF (fun h => GameState.noConfusion h))
        (nodup_aset _ _ hnd)
  | joinLobby sid lid0 now rx rz =>
    cases hL0 : aget s.lobbies lid0 with
    | none =>
      simp only [step, joinLobby, hL0]
      exact packC2 (monoLe_refl _) hNF hnd
    | some L0 =>
      by_cases h1 : L0.players.length ≥ L0.maxPlayers
      · simp only [step, joinLobby, hL0, if_pos h1]
        exact packC2 (monoLe_refl _) hNF hnd
      · by_cases h2 : L0.gameState ≠ GameState.waiting
        · simp only [step, joinLobby, hL0, if_neg h1, if_pos h2]
          exact packC2 (monoLe_refl _) hNF hnd
        · cases h3 : findAvailableSlot L0 with
          | none =>
            simp only [step, joinLobby, hL0, if_neg h1, if_neg h2, h3]
            exact packC2 (monoLe_refl _) hNF hnd
          | some slot =>
            simp only [step, joinLobby, hL0, if_neg h1, if_neg h2, h3]
            exact packC2 (monoLe_aset_keep lid0 hL0 (Nat.le_refl _))
              (noFin_aset hNF (hNF _ (aget_mem hL0))) (nodup_aset _ _ hnd)
  | quickMatch sid newId now conn =>
    simp only [step, quickMatch]
    cases hq : s.matchmakingQueue.erase sid with
    | nil =>
      simp only [hq]
      exact packC2 (monoLe_refl _) hNF hnd
    | cons p rest =>
      simp only [hq]
      by_cases hc : conn p = true
      · rw [if_pos hc]
        exact packC2 (monoLe_aset_fresh newId _ hF) (noFin_aset hNF (fun h => GameState.noConfusion h))
          (nodup_aset _ _ hnd)
      · rw [if_neg hc]
        exact packC2 (monoLe_refl _) hNF hnd
  | cancelMatch sid =>
    simp only [step, cancelMatch]
    exact packC2 (monoLe_refl _) hNF hnd
  | sendChat sid text mid now =>
    cases hmap : aget s.socketToLobby sid with
    | none =>
      simp only [step, sendChat, hmap]
      exact packC2 (monoLe_refl _) hNF hnd
    | some lid0 =>
      cases hL0 : aget s.lobbies lid0 with
      | none =>
        simp only [step, sendChat, hmap, hL0]
        exact packC2 (monoLe_refl _) hNF hnd
      | some L0 =>
        simp only [step, sendChat, hmap, hL0]
        exact packC2 (monoLe_aset_keep lid0 hL0 (Nat.le_refl _))
          (noFin_aset hNF (hNF _ (aget_mem hL0))) (nodup_aset _ _ hnd)
  | toggleReady sid =>
    cases hmap : aget s.socketToLobby sid with
    | none =>
      simp only [step, toggleReady, hmap]
      exact packC2 (monoLe_refl _) hNF hnd
    | some lid0 =>
      cases hL0 : aget s.lobbies lid0 with
      | none =>
        simp only [step, toggleReady, hmap, hL0]
        exact packC2 (monoLe_refl _) hNF hnd
      | some L0 =>
        cases hp : aget L0.players sid with
        | none =>
          simp only [step, toggleReady, hmap, hL0, hp]
          exact packC2 (monoLe_refl _) hNF hnd
        | some player =>
          by_cases hh : player.isHost = true
          · simp only [step, toggleReady, hmap, hL0, hp, if_pos hh]
            exact packC2 (monoLe_refl _) hNF hnd
          · simp only [step, toggleReady, hmap, hL0, hp, if_neg hh]
            exact packC2 (monoLe_aset_keep lid0 hL0 (Nat.le_refl _))
              (noFin_aset hNF (hNF _ (aget_mem hL0))) (nodup_aset _ _ hnd)
  | startGame sid =>
    cases hmap : aget s.socketToLobby sid with
    | none =>
      simp only [step, startGame, hmap]
      exact packC2 (monoLe_refl _) hNF hnd
    | some lid0 =>
      cases hL0 : aget s.lobbies lid0 with
      | none =>
        simp only [step, startGame, hmap, hL0]
        exact packC2 (monoLe_refl _) hNF hnd
      | some L0 =>
        by_cases h1 : L0.hostId ≠ sid
        · simp only [step, startGame, hmap, hL0, if_pos h1]
          exact packC2 (monoLe_refl _) hNF hnd
        · by_cases h2 : L0.players.length < 2
          · simp only [step, startGame, hmap, hL0, if_neg h1, if_pos h2]
            exact packC2 (monoLe_refl _) hNF hnd
          · simp only [step, startGame, hmap, hL0, if_neg h1, if_neg h2]
            refine ⟨?_, noFin_aset hNF (fun h => GameState.noConfusion h), nodup_aset _ _ hnd⟩
            intro lid L L' hL hL'
            by_cases he : lid = lid0
            · subst he
              rw [aget_aset_self] at hL'
              cases hL'
              exact Or.inr ⟨sid, rfl, rfl⟩
            · rw [aget_aset_ne s.lobbies lid0 lid
                { L0 with gameState := GameState.loading } (fun hc => he hc.symm)] at hL'
              rw [hL] at hL'
              cases hL'
              exact Or.inl (Nat.le_refl _)
  | playerUpdate sid pos rot health now =>
    cases hmap : aget s.socketToLobby sid with
    | none =>
      simp only [step, playerUpdate, hmap]
      exact packC2 (monoLe_refl _) hNF hnd
    | some lid0 =>
      cases hL0 : aget s.lobbies lid0 with
      | none =>
        simp only [step, playerUpdate, hmap, hL0]
        exact packC2 (monoLe_refl _) hNF hnd
      | some L0 =>
        cases hp : aget L0.players sid with
        | none =>
          simp only [step, playerUpdate, hmap, hL0, hp]
          exact packC2 (monoLe_refl _) hNF hnd
        | some player =>
          cases hU : aget s.socketUsername sid with
          | none =>
            simp only [step, playerUpdate, hmap, hL0, hp, hU]
            exact packC2 (monoLe_aset_keep lid0 hL0 (Nat.le_refl _))
              (noFin_aset hNF (hNF _ (aget_mem hL0))) (nodup_aset _ _ hnd)
          | some uname =>
            cases hE : aget s.usernames uname with
            | none =>
              simp only [step, playerUpdate, hmap, hL0, hp, hU, hE]
              exact packC2 (monoLe_aset_keep lid0 hL0 (Nat.le_refl _))
                (noFin_aset hNF (hNF _ (aget_mem hL0))) (nodup_aset _ _ hnd)
            | some e =>
              simp only [step, playerUpdate, hmap, hL0, hp, hU, hE]
              exact packC2 (monoLe_aset_keep lid0 hL0 (Nat.le_refl _))
                (noFin_aset hNF (hNF _ (aget_mem hL0))) (nodup_aset _ _ hnd)
  | gameStartTimeout lid0 =>
    cases hL0 : aget s.lobbies lid0 with
    | none =>
      simp only [step, gameStartTimeout, hL0]
      exact packC2 (monoLe_refl _) hNF hnd
    | some L0 =>
      simp only [step, gameStartTimeout, hL0]
      exact packC2 (monoLe_aset_keep lid0 hL0 (rank_le_playing (hNF _ (aget_mem hL0))))
        (noFin_aset hNF (fun h => GameState.noConfusion h)) (nodup_aset _ _ hnd)
  | playerDied sid =>
    cases hmap : aget s.socketToLobby sid with
    | none =>
      simp only [step, playerDied, hmap]
      exact packC2 (monoLe_refl _) hNF hnd
    | some lid0 =>
      cases hL0 : aget s.lobbies lid0 with
      | none =>
        simp only [step, playerDied, hmap, hL0]
        exact packC2 (monoLe_refl _) hNF hnd
      | some L0 =>
        simp only [step, playerDied, hmap, hL0]
        exact packC2 (monoLe_adel lid0 hnd) (noFin_adel hNF) (nodup_adel _ hnd)
  | leaveLobby sid =>
    have h := handleDisconnect_monotone s sid hNF hnd
    exact ⟨fun lid L L' h1 h2 => Or.inl (h.1 lid L L' h1 h2), h.2.1, h.2.2⟩
  | disconnect sid =>
    have h := handleDisconnect_monotone s sid hNF hnd
    exact ⟨fun lid L L' h1 h2 => Or.inl (h.1 lid L L' h1 h2), h.2.1, h.2.2⟩

/-- Witness for `lifecycle_monotone` at a concrete state and operation: a
chat message to the playing session `regrS` leaves its state `playing` (no
regression), and the invariants persist. -/
theorem lifecycle_monotone_witness :
    (∀ lid L L', aget regrS.lobbies lid = some L →
      aget (step regrS (Op.sendChat "A" "hi" "m1" 5)).lobbies lid = some L' →
      GameState.rank L.gameState ≤ GameState.rank L'.gameState ∨
      (∃ sid, Op.sendChat "A" "hi" "m1" 5 = Op.startGame sid ∧
        L'.gameState = GameState.loading)) ∧
    noFin (step regrS (Op.sendChat "A" "hi" "m1" 5)).lobbies ∧
    keysNodup (step regrS (Op.sendChat "A" "hi" "m1" 5)).lobbies :=
  lifecycle_monotone regrS (Op.sendChat "A" "hi" "m1" 5) (by decide) (by decide) trivial

end Moonward

namespace Moonward

-- ## Claim C1: exactly one host per non-empty session

/-- Host invariant of one stored session: distinct participant keys, a
non-empty roster, the `hostId` entry present and flagged `isHost`, and every
flagged entry keyed by `hostId`. -/
def lobbyOk (L : Lobby) : Prop :=
  keysNodup L.players ∧ L.players ≠ [] ∧
  (∃ p, aget L.players L.hostId = some p ∧ p.isHost = true) ∧
  (∀ e ∈ L.players, e.2.isHost = true → e.1 = L.hostId)

/-- Global server invariant: every stored session satisfies `lobbyOk` and the
matchmaking queue has no duplicate entries. -/
def Inv (s : ServerState) : Prop :=
  (∀ e ∈ s.lobbies, lobbyOk e.2) ∧ s.matchmakingQueue.Nodup

/-- Guard under which `joinLobby` preserves the host invariant: the joiner is
not the target session's current host (the unguarded code lets the host
re-join its own session, overwriting its record with a non-host one). -/
def joinGuard (s : ServerState) : Op → Prop
  | .joinLobby sid lid _ _ _ => ∀ L, aget s.lobbies lid = some L → sid ≠ L.hostId
  | _ => True

/-- `lobbyOk` pins the number of `isHost` flags to exactly one. -/
theorem lobbyOk_one_host {L : Lobby} (h : lobbyOk L) : countHosts L = 1 := by
  obtain ⟨hnd, hne, ⟨p, hp, hflag⟩, hall⟩ := h
  unfold countHosts
  have hmem : (L.hostId, p) ∈ L.players.filter (fun e => e.2.isHost) :=
    List.mem_filter.mpr ⟨aget_mem hp, by simpa using hflag⟩
  have hndf : ((L.players.filter (fun e => e.2.isHost)).map Prod.fst).Nodup :=
    List.Nodup.sublist ((List.filter_sublist _).map Prod.fst) hnd
  cases hf : L.players.filter (fun e => e.2.isHost) with
  | nil =>
    rw [hf] at hmem
    exact absurd hmem (List.not_mem_nil _)
  | cons x xs =>
    cases hxs : xs with
    | nil =>
      rfl
    | cons y t =>
      have hx : x ∈ L.players.filter (fun e => e.2.isHost) := by
        rw [hf]
        exact List.mem_cons_self _ _
      have hy : y ∈ L.players.filter (fun e => e.2.isHost) := by
        rw [hf, hxs]
        exact List.mem_cons_of_mem _ (List.mem_cons_self _ _)
      have hx1 : x.1 = L.hostId :=
        hall x (List.mem_filter.mp hx).1 (by simpa using (List.mem_filter.mp hx).2)
      have hy1 : y.1 = L.hostId :=
        hall y (List.mem_filter.mp hy).1 (by simpa using (List.mem_filter.mp hy).2)
      rw [hf, hxs] at hndf
      simp only [List.map_cons, List.nodup_cons] at hndf
      exact absurd (hx1.trans hy1.symm)
        (fun hxy => hndf.1 (hxy ▸ List.mem_cons_self _ _))

theorem invL_aset {m : List (String × Lobby)} {k : String} {L0 : Lobby}
    (h : ∀ e ∈ m, lobbyOk e.2) (h0 : lobbyOk L0) : ∀ e ∈ aset m k L0, lobbyOk e.2 :=
  fun e he => (mem_aset he).elim (fun hq => by rw [hq]; exact h0) (h e)

theorem invL_adel {m : List (String × Lobby)} {k : String}
    (h : ∀ e ∈ m, lobbyOk e.2) : ∀ e ∈ adel m k, lobbyOk e.2 :=
  fun e he => h e (mem_adel he)

/-- A fresh one-participant session whose creator is flagged host. -/
theorem lobbyOk_singleton_host (L : Lobby) (sid : String) (p : Player)
    (hplayers : L.players = [(sid, p)]) (hhost : L.hostId = sid)
    (hflag : p.isHost = true) : lobbyOk L := by
  refine ⟨?_, ?_, ⟨p, ?_, hflag⟩, ?_⟩
  · rw [hplayers]
    simp [keysNodup]
  · rw [hplayers]
    simp
  · rw [hplayers, hhost]
    simp [aget]
  · intro e he hf
    rw [hplayers, List.mem_singleton] at he
    subst he
    exact hhost.symm

/-- A fresh two-participant session whose first entry is the flagged host. -/
theorem lobbyOk_pair_host (L : Lobby) (a b : String) (pa pb : Player)
    (hplayers : L.players = [(a, pa), (b, pb)]) (hne : a ≠ b)
    (hhost : L.hostId = a) (hfa : pa.isHost = true) (hfb : pb.isHost = false) :
    lobbyOk L := by
  refine ⟨?_, ?_, ⟨pa, ?_, hfa⟩, ?_⟩
  · rw [hplayers]
    simp [keysNodup, hne]
  · rw [hplayers]
    simp
  · rw [hplayers, hhost]
    simp [aget]
  · intro e he hf
    rw [hplayers] at he
    rcases List.mem_cons.mp he with rfl | he'
    · exact hhost.symm
    · rw [List.mem_singleton] at he'
      subst he'
      rw [hfb] at hf
      cases hf

/-- Inserting or overwriting a non-host record keyed differently from the
host preserves the invariant. -/
theorem lobbyOk_join (L : Lobby) (sid : String) (p : Player)
    (hOk : lobbyOk L) (hflag : p.isHost = false) (hne : sid ≠ L.hostId) :
    lobbyOk { L with players := aset L.players sid p } := by
  obtain ⟨hnd, hne0, ⟨q, hq, hqf⟩, hall⟩ := hOk
  refine ⟨nodup_aset _ _ hnd, aset_ne_nil _ _ _, ⟨q, ?_, hqf⟩, ?_⟩
  · show aget (aset L.players sid p) L.hostId = some q
    rw [aget_aset_ne L.players sid L.hostId p hne]
    exact hq
  · intro e he hf
    rcases mem_aset he with rfl | he'
    · exact absurd hf (by simp [hflag])
    · exact hall e he' hf

/-- Overwriting an existing record with one carrying the same `isHost` flag
preserves the invariant. -/
theorem lobbyOk_update_keep (L : Lobby) (sid : String) (p p' : Player)
    (hOk : lobbyOk L) (hp : aget L.players sid = some p)
    (hkeep : p'.isHost = p.isHost) :
    lobbyOk { L with players := aset L.players sid p' } := by
  obtain ⟨hnd, hne0, ⟨q, hq, hqf⟩, hall⟩ := hOk
  refine ⟨nodup_aset _ _ hnd, aset_ne_nil _ _ _, ?_, ?_⟩
  · by_cases he : sid = L.hostId
    · refine ⟨p', ?_, ?_⟩
      · show aget (aset L.players sid p') L.hostId = some p'
        rw [← he]
        exact aget_aset_self _ _ _
      · rw [hkeep]
        have hpq : p = q := by
          rw [he] at hp
          exact Option.some.inj (hp.symm.trans hq)
        rw [hpq]
        exact hqf
    · refine ⟨q, ?_, hqf⟩
      show aget (aset L.players sid p') L.hostId = some q
      rw [aget_aset_ne L.players sid L.hostId p' he]
      exact hq
  · intro e he' hf
    rcases mem_aset he' with rfl | hee
    · have hpf : p.isHost = true := by
        rw [← hkeep]
        exact hf
      exact hall (sid, p) (aget_mem hp) hpf
    · exact hall e hee hf

/-- Changing only non-roster fields (chat, lifecycle state) preserves the
invariant. -/
theorem lobbyOk_same_players {L L' : Lobby} (hOk : lobbyOk L)
    (hp : L'.players = L.players) (hh : L'.hostId = L.hostId) : lobbyOk L' := by
  unfold lobbyOk
  rw [hp, hh]
  exact hOk

/-- Removing a non-host participant preserves the invariant (the host entry
survives, so the roster stays non-empty). -/
theorem lobbyOk_remove_nonhost (L : Lobby) (sid : String)
    (hOk : lobbyOk L) (hne : L.hostId ≠ sid) :
    lobbyOk { L with players := adel L.players sid } := by
  obtain ⟨hnd, hne0, ⟨q, hq, hqf⟩, hall⟩ := hOk
  have hsurv : aget (adel L.players sid) L.hostId = some q := by
    rw [aget_adel_ne L.players sid L.hostId (fun hc => hne hc.symm)]
    exact hq
  refine ⟨nodup_adel _ hnd, aget_ne_nil hsurv, ⟨q, hsurv, hqf⟩, ?_⟩
  intro e he hf
  exact hall e (mem_adel he) hf

/-- Removing the host and promoting the first remaining participant (flagged
host at seat 1) preserves the invariant. -/
theorem lobbyOk_promote (L : Lobby) (sid nhId : String) (nh : Player)
    (hOk : lobbyOk L) (hh : L.hostId = sid) :
    lobbyOk { L with
      hostId := nhId
      players := aset (adel L.players sid) nhId { nh with isHost := true, slot := 1 } } := by
  obtain ⟨hnd, hne0, ⟨q, hq, hqf⟩, hall⟩ := hOk
  have hndrem : keysNodup (adel L.players sid) := nodup_adel _ hnd
  refine ⟨nodup_aset _ _ hndrem, aset_ne_nil _ _ _, ⟨_, aget_aset_self _ _ _, rfl⟩, ?_⟩
  intro e he hf
  rcases mem_aset he with rfl | hee
  · rfl
  · have h1 : e.1 = sid := (hall e (mem_adel hee) hf).trans hh
    have h2 : e.1 ≠ sid := mem_adel_key_ne hnd hee
    exact absurd h1 h2

/-- Appending a fresh element to a duplicate-free list stays duplicate-free. -/
theorem nodup_append_singleton {l : List String} {a : String}
    (h : l.Nodup) (ha : a ∉ l) : (l ++ [a]).Nodup := by
  rw [List.nodup_append]
  exact ⟨h, List.nodup_singleton a, by simpa [List.disjoint_singleton] using ha⟩

end Moonward

namespace Moonward

/-- `handleDisconnect` preserves the global host invariant (the leave and
disconnect paths both reduce to it). -/
theorem handleDisconnect_Inv (s : ServerState) (sid : String) (hInv : Inv s) :
    Inv (handleDisconnect s sid).1 := by
  obtain ⟨hlob, hqn⟩ := hInv
  have hq : (s.matchmakingQueue.erase sid).Nodup := hqn.erase sid
  cases hmap : aget s.socketToLobby sid with
  | none =>
    simp only [handleDisconnect, hmap]
    exact ⟨hlob, hq⟩
  | some lid0 =>
    cases hL0 : aget s.lobbies lid0 with
    | none =>
      simp only [handleDisconnect, hmap, hL0]
      exact ⟨hlob, hq⟩
    | some L0 =>
      by_cases hh : L0.hostId = sid
      · cases hrem : adel L0.players sid with
        | nil =>
          simp only [handleDisconnect, hmap, hL0, if_pos hh, hrem]
          exact ⟨invL_adel hlob, hq⟩
        | cons nhpair t =>
          obtain ⟨nhId, nh⟩ := nhpair
          simp only [handleDisconnect, hmap, hL0, if_pos hh, hrem]
          have hok := lobbyOk_promote L0 sid nhId nh (hlob _ (aget_mem hL0)) hh
          rw [hrem] at hok
          exact ⟨invL_aset hlob hok, hq⟩
      · simp only [handleDisconnect, hmap, hL0, if_neg hh]
        exact ⟨invL_aset hlob (lobbyOk_remove_nonhost L0 sid (hlob _ (aget_mem hL0)) hh), hq⟩

/-- The global host invariant is preserved by every operation, with
`joinLobby` guarded against the target session's own host re-joining. -/
theorem Inv_preserved (s : ServerState) (op : Op)
    (hInv : Inv s) (hguard : joinGuard s op) : Inv (step s op) := by
  obtain ⟨hlob, hqn⟩ := hInv
  cases op with
  | register sid u now =>
    by_cases h1 : (strTrim u).length < 2
    · simp only [step, register, if_pos h1]
      exact ⟨hlob, hqn⟩
    · simp only [step, register, if_neg h1]
      split
      · exact ⟨hlob, hqn⟩
      · exact ⟨hlob, hqn⟩
  | createLobby sid newId now =>
    by_cases h1 : s.lobbies.length ≥ maxLobbies
    · simp only [step, createLobby, if_pos h1]
      exact ⟨hlob, hqn⟩
    · simp only [step, createLobby, if_neg h1]
      exact ⟨invL_aset hlob (lobbyOk_singleton_host _ sid _ rfl rfl rfl), hqn⟩
  | joinLobby sid lid0 now rx rz =>
    cases hL0 : aget s.lobbies lid0 with
    | none =>
      simp only [step, joinLobby, hL0]
      exact ⟨hlob, hqn⟩
    | some L0 =>
      by_cases h1 : L0.players.length ≥ L0.maxPlayers
      · simp only [step, joinLobby, hL0, if_pos h1]
        exact ⟨hlob, hqn⟩
      · by_cases h2 : L0.gameState ≠ GameState.waiting
        · simp only [step, joinLobby, hL0, if_neg h1, if_pos h2]
          exact ⟨hlob, hqn⟩
        · cases h3 : findAvailableSlot L0 with
          | none =>
            simp only [step, joinLobby, hL0, if_neg h1, if_neg h2, h3]
            exact ⟨hlob, hqn⟩
          | some slot =>
            simp only [step, joinLobby, hL0, if_neg h1, if_neg h2, h3]
            have hne : sid ≠ L0.hostId := hguard L0 hL0
            exact ⟨invL_aset hlob
              (lobbyOk_join L0 sid _ (hlob _ (aget_mem hL0)) rfl hne), hqn⟩
  | quickMatch sid newId now conn =>
    have hsid : sid ∉ s.matchmakingQueue.erase sid := hqn.not_mem_erase
    have hqe : (s.matchmakingQueue.erase sid).Nodup := hqn.erase sid
    simp only [step, quickMatch]
    cases hq : s.matchmakingQueue.erase sid with
    | nil =>
      simp only [hq]
      exact ⟨hlob, by simp⟩
    | cons p rest =>
      simp only [hq]
      rw [hq] at hsid hqe
      have hrest : rest.Nodup := hqe.of_cons
      have hps : p ≠ sid := fun hc => hsid (hc ▸ List.mem_cons_self _ _)
      have hsrest : sid ∉ rest := fun hc => hsid (List.mem_cons_of_mem _ hc)
      by_cases hc : conn p = true
      · rw [if_pos hc]
        refine ⟨invL_aset hlob (lobbyOk_pair_host _ p sid
          { id := p, username := socketName s p "Player 1", position := (0, 2, 0),
            rotation := 0, health := 100, isHost := true, isReady := true, slot := 1,
            lastActivity := now }
          { id := sid, username := socketName s sid "Player 2", position := (1, 2, 0),
            rotation := 0, health := 100, isHost := false, isReady := true, slot := 2,
            lastActivity := now }
          (by simp [aset, hps]) hps rfl rfl rfl), hrest⟩
      · rw [if_neg hc]
        exact ⟨hlob, nodup_append_singleton hrest hsrest⟩
  | cancelMatch sid =>
    simp only [step, cancelMatch]
    exact ⟨hlob, hqn.erase sid⟩
  | sendChat sid text mid now =>
    cases hmap : aget s.socketToLobby sid with
    | none =>
      simp only [step, sendChat, hmap]
      exact ⟨hlob, hqn⟩
    | some lid0 =>
      cases hL0 : aget s.lobbies lid0 with
      | none =>
        simp only [step, sendChat, hmap, hL0]
        exact ⟨hlob, hqn⟩
      | some L0 =>
        simp only [step, sendChat, hmap, hL0]
        exact ⟨invL_aset hlob
          (lobbyOk_same_players (hlob _ (aget_mem hL0)) rfl rfl), hqn⟩
  | toggleReady sid =>
    cases hmap : aget s.socketToLobby sid with
    | none =>
      simp only [step, toggleReady, hmap]
      exact ⟨hlob, hqn⟩
    | some lid0 =>
      cases hL0 : aget s.lobbies lid0 with
      | none =>
        simp only [step, toggleReady, hmap, hL0]
        exact ⟨hlob, hqn⟩
      | some L0 =>
        cases hp : aget L0.players sid with
        | none =>
          simp only [step, toggleReady, hmap, hL0, hp]
          exact ⟨hlob, hqn⟩
        | some player =>
          by_cases hh : player.isHost = true
          · simp only [step, toggleReady, hmap, hL0, hp, if_pos hh]
            exact ⟨hlob, hqn⟩
          · simp only [step, toggleReady, hmap, hL0, hp, if_neg hh]
            have hne : sid ≠ L0.hostId := by
              intro hcon
              obtain ⟨_, _, ⟨q, hq, hqf⟩, _⟩ := hlob _ (aget_mem hL0)
              rw [hcon] at hp
              have hpq : player = q := Option.some.inj (hp.symm.trans hq)
              exact hh (by rw [hpq]; exact hqf)
            exact ⟨invL_aset hlob (lobbyOk_join L0 sid _ (hlob _ (aget_mem hL0))
              (Bool.eq_false_iff.mpr hh) hne), hqn⟩
  | startGame sid =>
    cases hmap : aget s.socketToLobby sid with
    | none =>
      simp only [step, startGame, hmap]
      exact ⟨hlob, hqn⟩
    | some lid0 =>
      cases hL0 : aget s.lobbies lid0 with
      | none =>
        simp only [step, startGame, hmap, hL0]
        exact ⟨hlob, hqn⟩
      | some L0 =>
        by_cases h1 : L0.hostId ≠ sid
        · simp only [step, startGame, hmap, hL0, if_pos h1]
          exact ⟨hlob, hqn⟩
        · by_cases h2 : L0.players.length < 2
          · simp only [step, startGame, hmap, hL0, if_neg h1, if_pos h2]
            exact ⟨hlob, hqn⟩
          · simp only [step, startGame, hmap, hL0, if_neg h1, if_neg h2]
            exact ⟨invL_aset hlob
              (lobbyOk_same_players (hlob _ (aget_mem hL0)) rfl rfl), hqn⟩
  | playerUpdate sid pos rot health now =>
    cases hmap : aget s.socketToLobby sid with
    | none =>
      simp only [step, playerUpdate, hmap]
      exact ⟨hlob, hqn⟩
    | some lid0 =>
      cases hL0 : aget s.lobbies lid0 with
      | none =>
        simp only [step, playerUpdate, hmap, hL0]
        exact ⟨hlob, hqn⟩
      | some L0 =>
        cases hp : aget L0.players sid with
        | none =>
          simp only [step, playerUpdate, hmap, hL0, hp]
          exact ⟨hlob, hqn⟩
        | some player =>
          cases hU : aget s.socketUsername sid with
          | none =>
            simp only [step, playerUpdate, hmap, hL0, hp, hU]
            exact ⟨invL_aset hlob (lobbyOk_update_keep L0 sid player _
              (hlob _ (aget_mem hL0)) hp rfl), hqn⟩
          | some uname =>
            cases hE : aget s.usernames uname with
            | none =>
              simp only [step, playerUpdate, hmap, hL0, hp, hU, hE]
              exact ⟨invL_aset hlob (lobbyOk_update_keep L0 sid player _
                (hlob _ (aget_mem hL0)) hp rfl), hqn⟩
            | some e =>
              simp only [step, playerUpdate, hmap, hL0, hp, hU, hE]
              exact ⟨invL_aset hlob (lobbyOk_update_keep L0 sid player _
                (hlob _ (aget_mem hL0)) hp rfl), hqn⟩
  | gameStartTimeout lid0 =>
    cases hL0 : aget s.lobbies lid0 with
    | none =>
      simp only [step, gameStartTimeout, hL0]
      exact ⟨hlob, hqn⟩
    | some L0 =>
      simp only [step, gameStartTimeout, hL0]
      exact ⟨invL_aset hlob
        (lobbyOk_same_players (hlob _ (aget_mem hL0)) rfl rfl), hqn⟩
  | playerDied sid =>
    cases hmap : aget s.socketToLobby sid with
    | none =>
      simp only [step, playerDied, hmap]
      exact ⟨hlob, hqn⟩
    | some lid0 =>
      cases hL0 : aget s.lobbies lid0 with
      | none =>
        simp only [step, playerDied, hmap, hL0]
        exact ⟨hlob, hqn⟩
      | some L0 =>
        simp only [step, playerDied, hmap, hL0]
        exact ⟨invL_adel hlob, hqn⟩
  | leaveLobby sid =>
    exact handleDisconnect_Inv s sid ⟨hlob, hqn⟩
  | disconnect sid =>
    exact handleDisconnect_Inv s sid ⟨hlob, hqn⟩

/-- State reached by `"A"` creating a session and then `joinLobby`-ing the
very same session: the join handler overwrites the host's record with a
fresh non-host one. -/
def selfJoinS : ServerState :=
  step (step initialState (.createLobby "A" "L1" 0)) (.joinLobby "A" "L1" 1 0 0)

/-- C1 counterexample: after the reachable two-step sequence `createLobby`
then `joinLobby` by the same connection, session `"L1"` is non-empty (one
participant) yet has ZERO participants with `isHost = true` — `joinLobby`
does not preserve the exactly-one-host invariant. -/
theorem join_by_host_breaks_single_host :
    (aget selfJoinS.lobbies "L1").map (fun L => (countHosts L, L.players.length))
      = some (0, 1) := by
  decide

/-- C1 (amended): the exactly-one-host invariant holds in every stored
session and is preserved by create, quick-match pairing, ready-toggle,
chat, relays, game start and timers, and leave/disconnect with host
migration; `joinLobby` preserves it provided the joiner is not the target
session's current host (a host re-joining its own session overwrites its
record with a non-host one, leaving the session hostless). -/
theorem host_invariant (s : ServerState) (op : Op)
    (hInv : Inv s) (hguard : joinGuard s op) :
    Inv (step s op) ∧ ∀ e ∈ (step s op).lobbies, countHosts e.2 = 1 := by
  have h := Inv_preserved s op hInv hguard
  exact ⟨h, fun e he => lobbyOk_one_host (h.1 e he)⟩

/-- Witness for `host_invariant`: the initial state satisfies the invariant,
and after `"A"` creates a session the single stored session has exactly one
host. -/
theorem host_invariant_witness :
    Inv (step initialState (Op.createLobby "A" "L1" 0)) ∧
    ∀ e ∈ (step initialState (Op.createLobby "A" "L1" 0)).lobbies,
      countHosts e.2 = 1 :=
  host_invariant initialState (Op.createLobby "A" "L1" 0)
    ⟨fun e he => absurd he (List.not_mem_nil e), List.nodup_nil⟩ trivial

end Moonward
